import Mathlib

/-!
Verification of the market-data acquisition pipeline of the Crypto-app
backend (`backend/crypto_service.py`, plus the `/cryptos/top/{limit}` route of
`backend/main.py`).

The embedding is a direct translation of the Python source:

* JSON values delivered by the upstream provider become `PyValue`
  (null / number / string — the shapes the records actually carry; JSON
  numbers are carried opaquely as rationals, since the pipeline performs no
  arithmetic on them).
* A raw upstream record (`Dict[str, Any]`) becomes an association list
  `RawRecord`, with Python `dict.get` semantics (`pyGet` / `pyGetD`).
* `transform_coin_data` mirrors the Python function: argument expressions in
  Python evaluation order (the `.upper()` call can raise `AttributeError`),
  then pydantic validation of the `CryptoCoin` fields in declaration order.
  Fallible Python code is embedded as `Except String`.
* The two fetch entry points, the retry loop and the TTL cache are embedded
  as explicit state-passing functions over `SysState`, with the upstream
  HTTP dependency as an oracle `Upstream` and ghost logs of the HTTP
  requests issued and the `time.sleep` durations.
-/

/-- A parsed JSON value as `requests.Response.json()` delivers it to this
pipeline: Python `None` (JSON null, and also the result of a failed
`dict.get`), a number (int/float, carried opaquely as a rational since the
code never computes with it), or a string. -/
inductive PyValue where
  | pnone : PyValue
  | pnum : Rat → PyValue
  | pstr : String → PyValue
  deriving DecidableEq, Repr

/-- An upstream-provider record: a Python `Dict[str, Any]` with loosely-typed
values, embedded as an association list (keys unique by construction). -/
abbrev RawRecord : Type := List (String × PyValue)

/-- Python `d[k]` presence test / `d.get(k)` with no default: the stored
value if the key is present (even when that value is `None`), else `None`. -/
def pyGet (r : RawRecord) (k : String) : PyValue :=
  match List.lookup k r with
  | some v => v
  | none => PyValue.pnone

/-- Python `d.get(k, dflt)`: the stored value if the key is present (even
when that value is `None`), else the default. -/
def pyGetD (r : RawRecord) (k : String) (dflt : PyValue) : PyValue :=
  match List.lookup k r with
  | some v => v
  | none => dflt

/-- Python `str.upper()` on one string (ASCII case mapping — the only case
the symbols at hand exercise). -/
def pyStrUpper (s : String) : String :=
  String.mk (s.data.map Char.toUpper)

/-- Python `v.upper()`: defined on strings only; on `None` or a number the
attribute lookup raises `AttributeError` (Python's message names the type,
e.g. `AttributeError: NoneType object has no attribute upper`). -/
def pyUpper : PyValue → Except String String
  | PyValue.pstr s => Except.ok (pyStrUpper s)
  | _ => Except.error "AttributeError: upper"

/-- pydantic validation of a `str` field: a string is accepted; `None` is
rejected; a number is rejected (pydantic v2, the FastAPI default, does not
coerce numbers to `str`). -/
def validateStr : PyValue → Except String String
  | PyValue.pstr s => Except.ok s
  | _ => Except.error "ValidationError: str"

/-- pydantic validation of an `Optional[int]` field: `None` passes through,
an integral number is accepted, a fractional number or a string is rejected
(lax string-to-int coercion of numeric strings is not modelled; no claim
exercises it). -/
def validateOptInt : PyValue → Except String (Option Int)
  | PyValue.pnone => Except.ok none
  | PyValue.pnum q => if q.den = 1 then Except.ok (some q.num) else Except.error "ValidationError: int"
  | PyValue.pstr _ => Except.error "ValidationError: int"

/-- pydantic validation of an `Optional[float]` field: `None` passes
through, a number is accepted, a string is rejected (lax numeric-string
coercion not modelled; no claim exercises it). -/
def validateOptFloat : PyValue → Except String (Option Rat)
  | PyValue.pnone => Except.ok none
  | PyValue.pnum q => Except.ok (some q)
  | PyValue.pstr _ => Except.error "ValidationError: float"

/-- pydantic validation of an `Optional[str]` field. -/
def validateOptStr : PyValue → Except String (Option String)
  | PyValue.pnone => Except.ok none
  | PyValue.pstr s => Except.ok (some s)
  | PyValue.pnum _ => Except.error "ValidationError: str"

/-- `models.CryptoCoin` (pydantic `BaseModel`): the canonical coin shape.
Optional float fields are carried as rationals (no arithmetic is performed
on them anywhere in the pipeline). -/
structure CryptoCoin where
  rank : Option Int
  symbol : String
  id : String
  name : String
  price_usd : Option Rat
  market_cap_usd : Option Rat
  change_24h_pct : Option Rat
  total_volume_usd : Option Rat
  last_updated : Option String
  image_url : Option String
  deriving DecidableEq, Repr

/-- `crypto_service.transform_coin_data`: builds a `CryptoCoin` from a raw
record. The `.upper()` on `coin_data.get("symbol", "")` is evaluated first
(in Python, all constructor-argument expressions are evaluated before
pydantic validates; among them only the `.upper()` call can raise), then
the fields are validated in `CryptoCoin` declaration order. -/
def transform_coin_data (coin_data : RawRecord) : Except String CryptoCoin := do
  let symbol ← pyUpper (pyGetD coin_data "symbol" (PyValue.pstr ""))
  let rank ← validateOptInt (pyGet coin_data "market_cap_rank")
  let id ← validateStr (pyGetD coin_data "id" (PyValue.pstr ""))
  let name ← validateStr (pyGetD coin_data "name" (PyValue.pstr ""))
  let price_usd ← validateOptFloat (pyGet coin_data "current_price")
  let market_cap_usd ← validateOptFloat (pyGet coin_data "market_cap")
  let change_24h_pct ← validateOptFloat (pyGet coin_data "price_change_percentage_24h")
  let total_volume_usd ← validateOptFloat (pyGet coin_data "total_volume")
  let last_updated ← validateOptStr (pyGet coin_data "last_updated")
  let image_url ← validateOptStr (pyGet coin_data "image")
  pure ⟨rank, symbol, id, name, price_usd, market_cap_usd, change_24h_pct,
    total_volume_usd, last_updated, image_url⟩

/-- The value is a Python `str`. -/
def strShape : PyValue → Bool
  | PyValue.pstr _ => true
  | _ => false

/-- The value fits an `Optional[int]` field: `None` or an integral number. -/
def optIntShape : PyValue → Bool
  | PyValue.pnone => true
  | PyValue.pnum q => q.den = 1
  | PyValue.pstr _ => false

/-- The value fits an `Optional[float]` field: `None` or a number. -/
def optNumShape : PyValue → Bool
  | PyValue.pstr _ => false
  | _ => true

/-- The value fits an `Optional[str]` field: `None` or a string. -/
def optStrShape : PyValue → Bool
  | PyValue.pnum _ => false
  | _ => true

/-- A record is well-typed when every field the normalizer reads has, when
present, the Python type the corresponding `CryptoCoin` field expects. -/
def wellTypedRecord (r : RawRecord) : Bool :=
  strShape (pyGetD r "symbol" (PyValue.pstr "")) &&
  optIntShape (pyGet r "market_cap_rank") &&
  strShape (pyGetD r "id" (PyValue.pstr "")) &&
  strShape (pyGetD r "name" (PyValue.pstr "")) &&
  optNumShape (pyGet r "current_price") &&
  optNumShape (pyGet r "market_cap") &&
  optNumShape (pyGet r "price_change_percentage_24h") &&
  optNumShape (pyGet r "total_volume") &&
  optStrShape (pyGet r "last_updated") &&
  optStrShape (pyGet r "image")

/-- `Except.isOk` as a plain boolean observer. -/
def exceptIsOk : Except ε α → Bool
  | Except.ok _ => true
  | Except.error _ => false

deriving instance DecidableEq for Except

/-! ## Configuration, state and the upstream oracle -/

/-- The module-level configuration constants of `crypto_service.py`
(each `int(os.getenv(..., default))`). -/
structure Config where
  perPage : Nat
  maxCoins : Nat
  retryDelay : Nat
  requestDelay : Nat
  cacheTTL : Nat
  deriving DecidableEq, Repr

/-- The defaults: `PER_PAGE = 250`, `MAX_COINS = 1000`, `RETRY_DELAY = 15`,
`REQUEST_DELAY = 5`, `CRYPTO_CACHE_TTL = 60`. -/
def defaultConfig : Config := ⟨250, 1000, 15, 5, 60⟩

/-- The query-parameter dictionary sent with one upstream GET (the `params`
dict built in both fetch functions; `vs_currency`, `order` and `sparkline`
are fixed). -/
structure Req where
  vs_currency : String
  order : String
  per_page : Int
  page : Int
  sparkline : String
  deriving DecidableEq, Repr

/-- The `params` dict as both fetch functions build it. -/
def mkReq (per_page page : Int) : Req :=
  ⟨"usd", "market_cap_desc", per_page, page, "false"⟩

/-- Outcome of one `requests.get` + `raise_for_status` + `.json()` round:
a parsed JSON array, an `HTTPError` carrying the response status, or a
lower-level `requests.exceptions.RequestException` (timeout, connection
failure). -/
inductive HttpResult where
  | success : List RawRecord → HttpResult
  | httpError : Nat → HttpResult
  | netError : HttpResult

/-- The upstream HTTP provider as an oracle: the response to the n-th HTTP
call the process makes (counted over the whole run), given the query
parameters sent. -/
def Upstream : Type := Nat → Req → HttpResult

/-- Process state: the module-level `_cache` dict (key ↦ (timestamp,
cached raw page list)), the wall clock read by `time.time()`, and two ghost
logs — the upstream HTTP requests issued and the `time.sleep` durations,
in order. -/
structure SysState where
  cache : List (String × (Nat × List RawRecord))
  now : Nat
  calls : List Req
  sleeps : List Nat
  deriving DecidableEq, Repr

/-- A fresh process state at wall-clock time `t`. -/
def initState (t : Nat) : SysState :=
  ⟨[], t, [], []⟩

/-- Wall-clock time passing between calls (the environment, not the code). -/
def SysState.advance (s : SysState) (d : Nat) : SysState :=
  ⟨s.cache, s.now + d, s.calls, s.sleeps⟩

/-- `time.sleep(d)`: the wall clock advances by `d`; ghost-logged. -/
def pySleep (s : SysState) (d : Nat) : SysState :=
  ⟨s.cache, s.now + d, s.calls, s.sleeps ++ [d]⟩

/-- One `requests.get(COINGECKO_MARKETS, params=req, timeout=30)`: the
oracle answers the next call index; the request is ghost-logged. -/
def httpCall (up : Upstream) (req : Req) (s : SysState) : SysState × HttpResult :=
  (⟨s.cache, s.now, s.calls ++ [req], s.sleeps⟩, up s.calls.length req)

/-- Python dict assignment `m[k] = v` on an association list. -/
def dictSet (m : List (String × α)) (k : String) (v : α) : List (String × α) :=
  match m with
  | [] => [(k, v)]
  | (k1, v1) :: rest => if k1 = k then (k, v) :: rest else (k1, v1) :: dictSet rest k v

/-- Python `m.pop(k, None)` (the removal part) on an association list. -/
def dictPop (m : List (String × α)) (k : String) : List (String × α) :=
  m.filter (fun p => p.1 != k)

/-- `crypto_service._cache_get`: a stored entry is served iff the elapsed
wall-clock time since it was stored is at most `CRYPTO_CACHE_TTL`; a stale
entry is popped on this read and reported absent. (`if not entry` in the
source tests for `None`: a stored `(ts, value)` tuple is never falsy.) -/
def cacheGet (cfg : Config) (key : String) (s : SysState) :
    SysState × Option (List RawRecord) :=
  match List.lookup key s.cache with
  | none => (s, none)
  | some (ts, v) =>
    if s.now - ts > cfg.cacheTTL then
      (⟨dictPop s.cache key, s.now, s.calls, s.sleeps⟩, none)
    else
      (s, some v)

/-- `crypto_service._cache_set`: store the value under `key` stamped with
the current wall-clock time. -/
def cacheSet (key : String) (v : List RawRecord) (s : SysState) : SysState :=
  ⟨dictSet s.cache key (s.now, v), s.now, s.calls, s.sleeps⟩

/-- `max_retries = 3` in both fetch functions. -/
def maxRetries : Nat := 3

/-- The retry loop `for attempt in range(max_retries)` shared verbatim by
`fetch_coins_from_coingecko` and `fetch_coins_from_coingecko_paginated`:

* success: `break` with the parsed page;
* HTTP 429: `time.sleep(RETRY_DELAY * (attempt + 1))`, then fail with the
  rate-limit `HTTPException(429)` when this was the last attempt, else
  retry;
* any other `HTTPError`: fail at once with
  `HTTPException(response.status_code)`;
* `RequestException`: fail with `HTTPException(500)` when this was the last
  attempt, else `time.sleep(5)` and retry.

`remaining` is the number of loop iterations left (entered with
`maxRetries`); `attempt` is the 0-based loop counter. `FetchError
.loopExhausted` marks the for-loop falling through without `break`, which
cannot happen from the real entry point (the last attempt always breaks or
raises). -/
inductive FetchError where
  | invalidArgument : String → FetchError
  | rateLimitExceeded : FetchError
  | upstreamHttp : Nat → FetchError
  | unavailable : FetchError
  | noData : FetchError
  | internalError : FetchError
  | loopExhausted : FetchError
  | fuelExhausted : FetchError
  deriving DecidableEq, Repr

/-- The HTTP status of the `HTTPException` each `FetchError` embeds:
`invalidArgument` ↦ 400, `rateLimitExceeded` ↦ 429, `upstreamHttp st` ↦
`st`, `unavailable`/`internalError` ↦ 500, `noData` ↦ 404. -/
def FetchError.httpStatus : FetchError → Nat
  | FetchError.invalidArgument _ => 400
  | FetchError.rateLimitExceeded => 429
  | FetchError.upstreamHttp st => st
  | FetchError.unavailable => 500
  | FetchError.noData => 404
  | FetchError.internalError => 500
  | FetchError.loopExhausted => 0
  | FetchError.fuelExhausted => 0

def retryFetchPage (up : Upstream) (retryDelay : Nat) (req : Req) :
    Nat → Nat → SysState → SysState × Except FetchError (List RawRecord)
  | _, 0, s => (s, Except.error FetchError.loopExhausted)
  | attempt, remaining + 1, s =>
    match httpCall up req s with
    | (s1, HttpResult.success data) => (s1, Except.ok data)
    | (s1, HttpResult.httpError status) =>
      if status = 429 then
        let s2 := pySleep s1 (retryDelay * (attempt + 1))
        if attempt = maxRetries - 1 then
          (s2, Except.error FetchError.rateLimitExceeded)
        else
          retryFetchPage up retryDelay req (attempt + 1) remaining s2
      else
        (s1, Except.error (FetchError.upstreamHttp status))
    | (s1, HttpResult.netError) =>
      if attempt = maxRetries - 1 then
        (s1, Except.error FetchError.unavailable)
      else
        retryFetchPage up retryDelay req (attempt + 1) remaining (pySleep s1 5)

/-- Cache key `f"top:{MAX_COINS}"`. -/
def topKey (cfg : Config) : String :=
  "top:" ++ toString cfg.maxCoins

/-- Cache key `f"page:{page}:per:{per_page}"`. -/
def pageKey (page per_page : Int) : String :=
  "page:" ++ toString page ++ ":per:" ++ toString per_page

/-- The `while len(all_coins) < MAX_COINS` loop of
`fetch_coins_from_coingecko`, with a fuel parameter standing in for the
unbounded `while` (entered with `MAX_COINS + 1` fuel, which
`topLoop_no_fuelExhausted` shows is always enough: every iteration that
continues appends a non-empty page). Each iteration fetches one page with
the retry loop, breaks on an empty page, truncates to `MAX_COINS` once
reached, and otherwise sleeps `REQUEST_DELAY` before the next page. -/
def topLoop (cfg : Config) (up : Upstream) :
    Nat → List RawRecord → Int → SysState → SysState × Except FetchError (List RawRecord)
  | 0, _, _, s => (s, Except.error FetchError.fuelExhausted)
  | fuel + 1, acc, page, s =>
    if acc.length < cfg.maxCoins then
      match retryFetchPage up cfg.retryDelay (mkReq cfg.perPage page) 0 maxRetries s with
      | (s1, Except.error e) => (s1, Except.error e)
      | (s1, Except.ok data) =>
        if data.isEmpty then
          (s1, Except.ok acc)
        else
          let acc2 := acc ++ data
          if cfg.maxCoins ≤ acc2.length then
            (s1, Except.ok (acc2.take cfg.maxCoins))
          else
            topLoop cfg up fuel acc2 (page + 1) (pySleep s1 cfg.requestDelay)
    else
      (s, Except.ok acc)

/-- `crypto_service.fetch_coins_from_coingecko`: serve `f"top:{MAX_COINS}"`
from the cache when fresh; otherwise aggregate pages from page 1 and cache
the (possibly empty) aggregate. An error from the retry loop propagates
and nothing is cached. -/
def fetch_coins_from_coingecko (cfg : Config) (up : Upstream) (s : SysState) :
    SysState × Except FetchError (List RawRecord) :=
  match cacheGet cfg (topKey cfg) s with
  | (s1, some v) => (s1, Except.ok v)
  | (s1, none) =>
    match topLoop cfg up (cfg.maxCoins + 1) [] 1 s1 with
    | (s2, Except.error e) => (s2, Except.error e)
    | (s2, Except.ok coins) => (cacheSet (topKey cfg) coins s2, Except.ok coins)

/-- `crypto_service.fetch_coins_from_coingecko_paginated`: validate
`page >= 1` and `1 <= per_page <= 250` (failing with `HTTPException(400)`
before anything else), serve the `(page, per_page)` key from the cache when
fresh, otherwise fetch exactly one page with the retry loop; an empty page
is returned as `[]` without being cached, a non-empty page is cached
verbatim. -/
def fetch_coins_from_coingecko_paginated (cfg : Config) (up : Upstream)
    (page per_page : Int) (s : SysState) :
    SysState × Except FetchError (List RawRecord) :=
  if page < 1 then
    (s, Except.error (FetchError.invalidArgument "Page must be >= 1"))
  else if per_page < 1 ∨ per_page > 250 then
    (s, Except.error (FetchError.invalidArgument "Per page must be between 1 and 250"))
  else
    match cacheGet cfg (pageKey page per_page) s with
    | (s1, some v) => (s1, Except.ok v)
    | (s1, none) =>
      match retryFetchPage up cfg.retryDelay (mkReq per_page page) 0 maxRetries s1 with
      | (s2, Except.error e) => (s2, Except.error e)
      | (s2, Except.ok data) =>
        if data.isEmpty then
          (s2, Except.ok [])
        else
          (cacheSet (pageKey page per_page) data s2, Except.ok data)

/-! ## The `/cryptos/top/{limit}` route (`main.get_top_cryptos`)

`main.py` never imports `crypto_service` (or `models`): it carries its own
copies of the coin model, the transform and the two fetch functions, and
the routes call those local copies. The local fetches duplicate the
crypto_service bodies verbatim — same constants, hardcoded (`PER_PAGE =
250`, `MAX_COINS = 1000`, `RETRY_DELAY = 15`, `REQUEST_DELAY = 5`) — but
with no cache: `main.py` has no `_cache_get`/`_cache_set` at all. -/

/-- `main.CryptoCoin` (main.py:62-71): `main.py`'s own copy of the coin
model, without the `image_url` field of `models.CryptoCoin`. -/
structure MainCryptoCoin where
  rank : Option Int
  symbol : String
  id : String
  name : String
  price_usd : Option Rat
  market_cap_usd : Option Rat
  change_24h_pct : Option Rat
  total_volume_usd : Option Rat
  last_updated : Option String
  deriving DecidableEq, Repr

/-- `main.CryptoResponse` (main.py:74-82). Unlike `models.CryptoResponse`,
the pagination fields `page`, `per_page`, `total_pages`, `has_next`,
`has_prev` here have NO defaults: they are required. -/
structure MainCryptoResponse where
  coins : List MainCryptoCoin
  total_count : Nat
  last_updated : String
  page : Int
  per_page : Int
  total_pages : Int
  has_next : Bool
  has_prev : Bool
  deriving DecidableEq, Repr

/-- `main.transform_coin_data` (main.py:236-250): the same expression as
`crypto_service.transform_coin_data` minus the `image` read (its local
coin model has no `image_url`). -/
def main_transform_coin_data (coin_data : RawRecord) : Except String MainCryptoCoin := do
  let symbol ← pyUpper (pyGetD coin_data "symbol" (PyValue.pstr ""))
  let rank ← validateOptInt (pyGet coin_data "market_cap_rank")
  let id ← validateStr (pyGetD coin_data "id" (PyValue.pstr ""))
  let name ← validateStr (pyGetD coin_data "name" (PyValue.pstr ""))
  let price_usd ← validateOptFloat (pyGet coin_data "current_price")
  let market_cap_usd ← validateOptFloat (pyGet coin_data "market_cap")
  let change_24h_pct ← validateOptFloat (pyGet coin_data "price_change_percentage_24h")
  let total_volume_usd ← validateOptFloat (pyGet coin_data "total_volume")
  let last_updated ← validateOptStr (pyGet coin_data "last_updated")
  pure ⟨rank, symbol, id, name, price_usd, market_cap_usd, change_24h_pct,
    total_volume_usd, last_updated⟩

/-- `main.fetch_coins_from_coingecko` (main.py:116-177): `main.py`'s own
copy of the top-N aggregation — the very same `while len(all_coins) <
MAX_COINS` loop with the same retry logic, embedded by `topLoop` at
`defaultConfig` (main.py hardcodes exactly those constant values) — with
NO cache lookup before it and NO cache store after it. -/
def main_fetch_coins_from_coingecko (up : Upstream) (s : SysState) :
    SysState × Except FetchError (List RawRecord) :=
  topLoop defaultConfig up (defaultConfig.maxCoins + 1) [] 1 s

/-- `main.get_top_cryptos` (main.py:581-627): validate
`1 <= limit <= 1000`, call `main.py`'s own UNCACHED
`fetch_coins_from_coingecko`, answer 404 (`noData`) on an empty aggregate,
slice the raw aggregate to `limit` client-side and normalize each record
with `main.py`'s own transform (a normalization exception is caught by the
route's generic `except Exception` handler as `HTTPException(500)`,
`internalError` here). On the success path the route then evaluates
`CryptoResponse(coins=..., total_count=..., last_updated=...)`, which
omits the required `page`, `per_page`, `total_pages`, `has_next` and
`has_prev` fields of `main.CryptoResponse`: pydantic raises
`ValidationError`, which the same generic handler also turns into
`HTTPException(500)` — the route never produces a success value. -/
def get_top_cryptos (up : Upstream) (limit : Int) (s : SysState) :
    SysState × Except FetchError MainCryptoResponse :=
  if limit ≤ 0 ∨ limit > 1000 then
    (s, Except.error (FetchError.invalidArgument "Limit must be between 1 and 1000"))
  else
    match main_fetch_coins_from_coingecko up s with
    | (s1, Except.error e) => (s1, Except.error e)
    | (s1, Except.ok raw_coins) =>
      if raw_coins.isEmpty then
        (s1, Except.error FetchError.noData)
      else
        match (raw_coins.take limit.toNat).mapM main_transform_coin_data with
        | Except.error _ => (s1, Except.error FetchError.internalError)
        | Except.ok _ => (s1, Except.error FetchError.internalError)

/-! ## Mock upstreams (the shapes the spec's scenarios use) -/

/-- An upstream that always answers immediately with the page the page
number selects (success on the first attempt of every request). -/
def pureUp (P : Int → List RawRecord) : Upstream :=
  fun _ req => HttpResult.success (P req.page)

/-- One mocked coin record, mirroring `_sample_coins_page` of the
repository's tests. -/
def mockCoin (n : Int) : RawRecord :=
  [("market_cap_rank", PyValue.pnum ((n : Int) : Rat)),
   ("symbol", PyValue.pstr ("C" ++ toString n)),
   ("id", PyValue.pstr ("coin-" ++ toString n)),
   ("name", PyValue.pstr ("Coin " ++ toString n)),
   ("current_price", PyValue.pnum ((100 + n : Int) : Rat)),
   ("market_cap", PyValue.pnum ((1000000 * n : Int) : Rat)),
   ("price_change_percentage_24h", PyValue.pnum ((1 : Int) : Rat)),
   ("total_volume", PyValue.pnum ((10000 * n : Int) : Rat)),
   ("last_updated", PyValue.pstr "2025-01-01T00:00:00Z")]

/-- The spec's mocked upstream: 5-record pages for pages 1..4, an empty
page from page 5 on. -/
def mockPages (page : Int) : List RawRecord :=
  if 1 ≤ page ∧ page ≤ 4 then
    (List.range 5).map (fun i => mockCoin (5 * (page - 1) + (i + 1)))
  else
    []

/-- Concatenation of the pages `P page, P (page+1), ..., P (page+k-1)` in
upstream order. -/
def joinSeg (P : Int → List RawRecord) : Int → Nat → List RawRecord
  | _, 0 => []
  | page, k + 1 => P page ++ joinSeg P (page + 1) k

/-! ## Helper lemmas -/

theorem exceptBind_ok (a : α) (f : α → Except ε β) :
    (Except.ok a >>= f : Except ε β) = f a := rfl

theorem exceptBind_error (e : ε) (f : α → Except ε β) :
    (Except.error e >>= f : Except ε β) = Except.error e := rfl

theorem lookup_cons_self (k : String) (v : α) (rest : List (String × α)) :
    List.lookup k ((k, v) :: rest) = some v := by
  simp [List.lookup_cons]

theorem lookup_cons_of_ne (k1 k2 : String) (v1 : α) (rest : List (String × α))
    (h : k2 ≠ k1) : List.lookup k2 ((k1, v1) :: rest) = List.lookup k2 rest := by
  simp [List.lookup_cons, beq_false_of_ne h]

theorem lookup_dictSet_self (m : List (String × α)) (k : String) (v : α) :
    List.lookup k (dictSet m k v) = some v := by
  induction m with
  | nil => simp [dictSet, lookup_cons_self]
  | cons p rest ih =>
    obtain ⟨k1, v1⟩ := p
    by_cases h : k1 = k
    · simp [dictSet, h, lookup_cons_self]
    · simp [dictSet, h, lookup_cons_of_ne _ _ _ _ (Ne.symm h), ih]

theorem lookup_dictSet_ne (m : List (String × α)) (k k2 : String) (v : α)
    (h : k2 ≠ k) : List.lookup k2 (dictSet m k v) = List.lookup k2 m := by
  induction m with
  | nil => simp [dictSet, lookup_cons_of_ne _ _ _ _ h]
  | cons p rest ih =>
    obtain ⟨k1, v1⟩ := p
    by_cases h1 : k1 = k
    · subst h1
      simp [dictSet, lookup_cons_of_ne _ _ _ _ h]
    · by_cases h2 : k2 = k1
      · subst h2
        simp [dictSet, h1, lookup_cons_self]
      · simp [dictSet, h1, lookup_cons_of_ne _ _ _ _ h2, ih]

theorem lookup_dictPop_self (m : List (String × α)) (k : String) :
    List.lookup k (dictPop m k) = none := by
  induction m with
  | nil => simp [dictPop]
  | cons p rest ih =>
    obtain ⟨k1, v1⟩ := p
    by_cases h : k1 = k
    · simpa [dictPop, List.filter_cons, h] using ih
    · simp only [dictPop, List.filter_cons] at ih ⊢
      rw [if_pos (by simp [h]), lookup_cons_of_ne _ _ _ _ (Ne.symm h)]
      exact ih

theorem lookup_dictPop_ne (m : List (String × α)) (k k2 : String)
    (h : k2 ≠ k) : List.lookup k2 (dictPop m k) = List.lookup k2 m := by
  induction m with
  | nil => simp [dictPop]
  | cons p rest ih =>
    obtain ⟨k1, v1⟩ := p
    by_cases h1 : k1 = k
    · subst h1
      simp only [dictPop, List.filter_cons] at ih ⊢
      rw [if_neg (by simp), lookup_cons_of_ne _ _ _ _ h]
      exact ih
    · simp only [dictPop, List.filter_cons] at ih ⊢
      rw [if_pos (by simp [h1])]
      by_cases h2 : k2 = k1
      · subst h2
        rw [lookup_cons_self, lookup_cons_self]
      · rw [lookup_cons_of_ne _ _ _ _ h2, lookup_cons_of_ne _ _ _ _ h2]
        exact ih

theorem cacheGet_of_miss (cfg : Config) (key : String) (s : SysState)
    (h : List.lookup key s.cache = none) :
    cacheGet cfg key s = (s, none) := by
  simp [cacheGet, h]

theorem cacheGet_cache_other (cfg : Config) (key k2 : String) (s : SysState)
    (h : k2 ≠ key) :
    List.lookup k2 ((cacheGet cfg key s).1).cache = List.lookup k2 s.cache := by
  unfold cacheGet
  cases hl : List.lookup key s.cache with
  | none => rfl
  | some e =>
    obtain ⟨ts, v⟩ := e
    by_cases hstale : s.now - ts > cfg.cacheTTL
    · simp [hstale, lookup_dictPop_ne _ _ _ h]
    · simp [hstale]

theorem cacheGet_of_fresh (cfg : Config) (key : String) (s : SysState)
    (ts : Nat) (v : List RawRecord)
    (h : List.lookup key s.cache = some (ts, v)) (hf : s.now - ts ≤ cfg.cacheTTL) :
    cacheGet cfg key s = (s, some v) := by
  unfold cacheGet
  rw [h]
  dsimp only
  rw [if_neg (by omega)]

theorem cacheGet_of_stale (cfg : Config) (key : String) (s : SysState)
    (ts : Nat) (v : List RawRecord)
    (h : List.lookup key s.cache = some (ts, v)) (hs : cfg.cacheTTL < s.now - ts) :
    cacheGet cfg key s = (⟨dictPop s.cache key, s.now, s.calls, s.sleeps⟩, none) := by
  unfold cacheGet
  rw [h]
  dsimp only
  rw [if_pos hs]

theorem retryFetchPage_success_step (up : Upstream) (d : Nat) (req : Req)
    (attempt r : Nat) (s : SysState) (data : List RawRecord)
    (h : up s.calls.length req = HttpResult.success data) :
    retryFetchPage up d req attempt (r + 1) s =
      (⟨s.cache, s.now, s.calls ++ [req], s.sleeps⟩, Except.ok data) := by
  simp [retryFetchPage, httpCall, h]

theorem retryFetchPage_cache (up : Upstream) (d : Nat) (req : Req) :
    ∀ (rem attempt : Nat) (s : SysState),
      ((retryFetchPage up d req attempt rem s).1).cache = s.cache := by
  intro rem
  induction rem with
  | zero => intro attempt s; rfl
  | succ r ih =>
    intro attempt s
    simp only [retryFetchPage, httpCall]
    cases up s.calls.length req with
    | success data => rfl
    | httpError status =>
      by_cases h429 : status = 429
      · by_cases hlast : attempt = maxRetries - 1
        · simp [h429, hlast, pySleep]
        · simp [h429, hlast, pySleep, ih]
      · simp [h429]
    | netError =>
      by_cases hlast : attempt = maxRetries - 1
      · simp [hlast]
      · simp [hlast, pySleep, ih]

theorem retryFetchPage_ne_fuelExhausted (up : Upstream) (d : Nat) (req : Req) :
    ∀ (rem attempt : Nat) (s : SysState),
      (retryFetchPage up d req attempt rem s).2 ≠ Except.error FetchError.fuelExhausted := by
  intro rem
  induction rem with
  | zero => intro attempt s; simp [retryFetchPage]
  | succ r ih =>
    intro attempt s
    simp only [retryFetchPage, httpCall]
    cases up s.calls.length req with
    | success data => simp
    | httpError status =>
      by_cases h429 : status = 429
      · by_cases hlast : attempt = maxRetries - 1
        · simp [h429, hlast]
        · simp [h429, hlast, ih]
      · simp [h429]
    | netError =>
      by_cases hlast : attempt = maxRetries - 1
      · simp [hlast]
      · simp [hlast, ih]

theorem topLoop_cache (cfg : Config) (up : Upstream) :
    ∀ (fuel : Nat) (acc : List RawRecord) (page : Int) (s : SysState),
      ((topLoop cfg up fuel acc page s).1).cache = s.cache := by
  intro fuel
  induction fuel with
  | zero => intro acc page s; rfl
  | succ f ih =>
    intro acc page s
    simp only [topLoop]
    by_cases hlt : acc.length < cfg.maxCoins
    · rw [if_pos hlt]
      rcases hr : retryFetchPage up cfg.retryDelay (mkReq cfg.perPage page) 0 maxRetries s with ⟨s1, res⟩
      have hc1 : s1.cache = s.cache := by
        have := retryFetchPage_cache up cfg.retryDelay (mkReq cfg.perPage page) maxRetries 0 s
        rw [hr] at this
        exact this
      cases res with
      | error e => exact hc1
      | ok data =>
        dsimp only
        by_cases hemp : data.isEmpty = true
        · rw [if_pos hemp]
          exact hc1
        · rw [if_neg hemp]
          by_cases hge : cfg.maxCoins ≤ (acc ++ data).length
          · rw [if_pos hge]
            exact hc1
          · rw [if_neg hge, ih]
            simpa [pySleep] using hc1
    · rw [if_neg hlt]

/-- The retry loop, entered at its real entry point, on an upstream that
answers the first attempt. -/
theorem retryFetchPage_entry_success (up : Upstream) (d : Nat) (req : Req)
    (s : SysState) (data : List RawRecord)
    (h : up s.calls.length req = HttpResult.success data) :
    retryFetchPage up d req 0 maxRetries s =
      (⟨s.cache, s.now, s.calls ++ [req], s.sleeps⟩, Except.ok data) :=
  retryFetchPage_success_step up d req 0 2 s data h

/-- The fuel `MAX_COINS + 1` handed to `topLoop` by
`fetch_coins_from_coingecko` is always sufficient: every continuing
iteration grows the accumulator by a non-empty page. -/
theorem topLoop_no_fuelExhausted (cfg : Config) (up : Upstream) :
    ∀ (fuel : Nat) (acc : List RawRecord) (page : Int) (s : SysState),
      cfg.maxCoins - acc.length < fuel →
      (topLoop cfg up fuel acc page s).2 ≠ Except.error FetchError.fuelExhausted := by
  intro fuel
  induction fuel with
  | zero => intro acc page s h; exact absurd h (Nat.not_lt_zero _)
  | succ f ih =>
    intro acc page s hfuel
    simp only [topLoop]
    by_cases hlt : acc.length < cfg.maxCoins
    · rw [if_pos hlt]
      rcases hr : retryFetchPage up cfg.retryDelay (mkReq cfg.perPage page) 0 maxRetries s with ⟨s1, res⟩
      cases res with
      | error e =>
        have hne := retryFetchPage_ne_fuelExhausted up cfg.retryDelay (mkReq cfg.perPage page) maxRetries 0 s
        rw [hr] at hne
        simpa using hne
      | ok data =>
        dsimp only
        by_cases hemp : data.isEmpty = true
        · rw [if_pos hemp]
          simp
        · rw [if_neg hemp]
          by_cases hge : cfg.maxCoins ≤ (acc ++ data).length
          · rw [if_pos hge]
            simp
          · rw [if_neg hge]
            apply ih
            have hdata : data ≠ [] := by simpa [List.isEmpty_iff] using hemp
            have hpos : 0 < data.length := List.length_pos.mpr hdata
            have hlen : (acc ++ data).length = acc.length + data.length :=
              List.length_append acc data
            omega
    · rw [if_neg hlt]
      simp

/-- On an upstream that answers every request immediately with the page its
page number selects, the top-N loop returns the concatenation of the pages
it walked, truncated to `MAX_COINS`. -/
theorem topLoop_pure (cfg : Config) (P : Int → List RawRecord) :
    ∀ (fuel : Nat) (acc : List RawRecord) (page : Int) (s : SysState),
      cfg.maxCoins - acc.length < fuel → acc.length ≤ cfg.maxCoins →
      ∃ s2 k, topLoop cfg (pureUp P) fuel acc page s =
        (s2, Except.ok (List.take cfg.maxCoins (acc ++ joinSeg P page k))) := by
  intro fuel
  induction fuel with
  | zero => intro acc page s h _; exact absurd h (Nat.not_lt_zero _)
  | succ f ih =>
    intro acc page s hfuel hle
    simp only [topLoop]
    by_cases hlt : acc.length < cfg.maxCoins
    · rw [if_pos hlt]
      rw [retryFetchPage_entry_success (pureUp P) cfg.retryDelay (mkReq cfg.perPage page) s
        (P page) rfl]
      dsimp only
      by_cases hP : P page = []
      · rw [if_pos (by simp [List.isEmpty_iff, hP])]
        refine ⟨⟨s.cache, s.now, s.calls ++ [mkReq cfg.perPage page], s.sleeps⟩, 0, ?_⟩
        simp [joinSeg, List.take_of_length_le hle]
      · rw [if_neg (by simp [List.isEmpty_iff, hP])]
        by_cases hge : cfg.maxCoins ≤ (acc ++ P page).length
        · rw [if_pos hge]
          refine ⟨⟨s.cache, s.now, s.calls ++ [mkReq cfg.perPage page], s.sleeps⟩, 1, ?_⟩
          simp [joinSeg]
        · rw [if_neg hge]
          have hpos : 0 < (P page).length := List.length_pos.mpr hP
          have hlen : (acc ++ P page).length = acc.length + (P page).length :=
            List.length_append acc (P page)
          obtain ⟨s2, k, hk⟩ := ih (acc ++ P page) (page + 1)
            (pySleep ⟨s.cache, s.now, s.calls ++ [mkReq cfg.perPage page], s.sleeps⟩ cfg.requestDelay)
            (by omega) (by omega)
          refine ⟨s2, k + 1, ?_⟩
          rw [hk]
          simp [joinSeg, List.append_assoc]
    · rw [if_neg hlt]
      refine ⟨s, 0, ?_⟩
      simp [joinSeg, List.take_of_length_le hle]

/-- The retry loop on an upstream that answers every attempt with HTTP 429:
three attempts, sleeping `RETRY_DELAY * 1`, `* 2`, `* 3` (the last sleep
happens just before the rate-limit failure is raised), then
`rateLimitExceeded`. -/
theorem retryFetchPage_allRateLimited (up : Upstream) (d : Nat) (req : Req) (s : SysState)
    (h : ∀ n, up n req = HttpResult.httpError 429) :
    retryFetchPage up d req 0 maxRetries s =
      (⟨s.cache, s.now + d * 1 + d * 2 + d * 3, s.calls ++ [req, req, req],
        s.sleeps ++ [d * 1, d * 2, d * 3]⟩,
       Except.error FetchError.rateLimitExceeded) := by
  show retryFetchPage up d req 0 (2 + 1) s = _
  simp [retryFetchPage, httpCall, pySleep, h, maxRetries]

/-- The retry loop on an upstream whose first answer is a non-429 HTTP
error: a single attempt, no sleep, immediate failure with the upstream
status preserved. -/
theorem retryFetchPage_entry_httpError (up : Upstream) (d : Nat) (req : Req)
    (s : SysState) (st : Nat)
    (h : up s.calls.length req = HttpResult.httpError st) (hne : st ≠ 429) :
    retryFetchPage up d req 0 maxRetries s =
      (⟨s.cache, s.now, s.calls ++ [req], s.sleeps⟩,
       Except.error (FetchError.upstreamHttp st)) := by
  show retryFetchPage up d req 0 (2 + 1) s = _
  simp [retryFetchPage, httpCall, h, hne]

theorem strShape_pyUpper_ok (v : PyValue) (h : strShape v = true) :
    ∃ s, v = PyValue.pstr s ∧ pyUpper v = Except.ok (pyStrUpper s) := by
  cases v with
  | pnone => simp [strShape] at h
  | pnum q => simp [strShape] at h
  | pstr s => exact ⟨s, rfl, rfl⟩

theorem strShape_validateStr_ok (v : PyValue) (h : strShape v = true) :
    ∃ s, validateStr v = Except.ok s := by
  cases v with
  | pnone => simp [strShape] at h
  | pnum q => simp [strShape] at h
  | pstr s => exact ⟨s, rfl⟩

theorem optIntShape_validateOptInt_ok (v : PyValue) (h : optIntShape v = true) :
    ∃ x, validateOptInt v = Except.ok x := by
  cases v with
  | pnone => exact ⟨none, rfl⟩
  | pnum q =>
    have hq : q.den = 1 := by simpa [optIntShape] using h
    exact ⟨some q.num, by simp [validateOptInt, hq]⟩
  | pstr s => simp [optIntShape] at h

theorem optNumShape_validateOptFloat_ok (v : PyValue) (h : optNumShape v = true) :
    ∃ x, validateOptFloat v = Except.ok x := by
  cases v with
  | pnone => exact ⟨none, rfl⟩
  | pnum q => exact ⟨some q, rfl⟩
  | pstr s => simp [optNumShape] at h

theorem optStrShape_validateOptStr_ok (v : PyValue) (h : optStrShape v = true) :
    ∃ x, validateOptStr v = Except.ok x := by
  cases v with
  | pnone => exact ⟨none, rfl⟩
  | pnum q => simp [optStrShape] at h
  | pstr s => exact ⟨some s, rfl⟩

/-! ## The claims -/

/-- C2. The top-N aggregation (`fetch_coins_from_coingecko`) accumulates
records page by page until the configured maximum is reached or upstream
returns an empty page, and (on an upstream that answers each page request
with the page its page number selects) its result is exactly the
concatenation of the fetched pages truncated to the configured maximum —
hence a prefix of that concatenation, of length `min maxCoins total`, i.e.
exactly the maximum whenever the accumulated total exceeds it, preserving
upstream order. In particular, with the mocked upstream returning 5-record
pages for pages 1..4 and an empty page at 5, the default-configuration
fetch aggregates exactly the 20 mocked records in upstream order. -/
theorem claim_c2_top_n_aggregation :
    (∀ (cfg : Config) (P : Int → List RawRecord) (t : Nat),
      ∃ s2 k, fetch_coins_from_coingecko cfg (pureUp P) (initState t) =
        (s2, Except.ok (List.take cfg.maxCoins (joinSeg P 1 k))) ∧
        (List.take cfg.maxCoins (joinSeg P 1 k)).length =
          min cfg.maxCoins (joinSeg P 1 k).length) ∧
    (fetch_coins_from_coingecko defaultConfig (pureUp mockPages) (initState 0)).2 =
      Except.ok ((List.range 20).map (fun i => mockCoin ((i : Int) + 1))) := by
  constructor
  · intro cfg P t
    obtain ⟨s2, k, hk⟩ := topLoop_pure cfg P (cfg.maxCoins + 1) [] 1 (initState t)
      (by simp) (by simp)
    refine ⟨cacheSet (topKey cfg) (List.take cfg.maxCoins (joinSeg P 1 k)) s2, k, ?_, ?_⟩
    · unfold fetch_coins_from_coingecko
      rw [cacheGet_of_miss cfg (topKey cfg) (initState t) (by simp [initState])]
      dsimp only
      rw [hk]
      simp
    · simp
  · decide

/-- C3. If upstream answers HTTP 429 on every attempt for one page, the
paginated fetcher makes exactly 3 attempts, waiting
`retry_delay * attempt_number` seconds after each attempt — so the waits
before attempts 2 and 3 are `1×delay` and `2×delay`, strictly increasing
when the delay is positive (a final `3×delay` wait precedes the failure) —
and then fails with the rate-limit error. -/
theorem claim_c3_rate_limit_three_attempts (cfg : Config) (up : Upstream)
    (page per_page : Int) (s : SysState)
    (hpage : 1 ≤ page) (hpp1 : 1 ≤ per_page) (hpp2 : per_page ≤ 250)
    (hmiss : List.lookup (pageKey page per_page) s.cache = none)
    (hup : ∀ n, up n (mkReq per_page page) = HttpResult.httpError 429)
    (hd : 0 < cfg.retryDelay) :
    (fetch_coins_from_coingecko_paginated cfg up page per_page s).2 =
      Except.error FetchError.rateLimitExceeded ∧
    ((fetch_coins_from_coingecko_paginated cfg up page per_page s).1).calls.length =
      s.calls.length + 3 ∧
    ((fetch_coins_from_coingecko_paginated cfg up page per_page s).1).sleeps =
      s.sleeps ++ [cfg.retryDelay * 1, cfg.retryDelay * 2, cfg.retryDelay * 3] ∧
    cfg.retryDelay * 1 < cfg.retryDelay * 2 ∧
    cfg.retryDelay * 2 < cfg.retryDelay * 3 := by
  have hfetch : fetch_coins_from_coingecko_paginated cfg up page per_page s =
      (⟨s.cache, s.now + cfg.retryDelay * 1 + cfg.retryDelay * 2 + cfg.retryDelay * 3,
        s.calls ++ [mkReq per_page page, mkReq per_page page, mkReq per_page page],
        s.sleeps ++ [cfg.retryDelay * 1, cfg.retryDelay * 2, cfg.retryDelay * 3]⟩,
       Except.error FetchError.rateLimitExceeded) := by
    unfold fetch_coins_from_coingecko_paginated
    rw [if_neg (by omega), if_neg (by omega), cacheGet_of_miss cfg _ s hmiss]
    dsimp only
    rw [retryFetchPage_allRateLimited up cfg.retryDelay (mkReq per_page page) s hup]
  rw [hfetch]
  refine ⟨rfl, by simp, rfl, by omega, by omega⟩

/-- C3 witness: the default configuration, an upstream answering 429 to
everything, and `fetch_page(page=2, per_page=5)` from a fresh state. -/
theorem claim_c3_rate_limit_three_attempts_witness :
    (fetch_coins_from_coingecko_paginated defaultConfig
        (fun _ _ => HttpResult.httpError 429) 2 5 (initState 0)).2 =
      Except.error FetchError.rateLimitExceeded ∧
    ((fetch_coins_from_coingecko_paginated defaultConfig
        (fun _ _ => HttpResult.httpError 429) 2 5 (initState 0)).1).calls.length =
      (initState 0).calls.length + 3 ∧
    ((fetch_coins_from_coingecko_paginated defaultConfig
        (fun _ _ => HttpResult.httpError 429) 2 5 (initState 0)).1).sleeps =
      (initState 0).sleeps ++ [defaultConfig.retryDelay * 1, defaultConfig.retryDelay * 2,
        defaultConfig.retryDelay * 3] ∧
    defaultConfig.retryDelay * 1 < defaultConfig.retryDelay * 2 ∧
    defaultConfig.retryDelay * 2 < defaultConfig.retryDelay * 3 :=
  claim_c3_rate_limit_three_attempts defaultConfig (fun _ _ => HttpResult.httpError 429)
    2 5 (initState 0) (by decide) (by decide) (by decide) rfl (fun _ => rfl) (by decide)

/-- C5. For a valid `(page, per_page)` whose first fetch succeeds with a
non-empty page: the first call issues one upstream HTTP call and caches the
page; a second identical call within the TTL window issues no further
upstream call and serves the same result from the cache; a third identical
call issued after the TTL has elapsed finds the entry stale and issues a
second upstream call. -/
theorem claim_c5_cache_idempotence (cfg : Config) (up : Upstream)
    (page per_page : Int) (data : List RawRecord) (s0 : SysState) (d1 d2 : Nat)
    (hpage : 1 ≤ page) (hpp1 : 1 ≤ per_page) (hpp2 : per_page ≤ 250)
    (hmiss : List.lookup (pageKey page per_page) s0.cache = none)
    (hup : ∀ n, up n (mkReq per_page page) = HttpResult.success data)
    (hne : data ≠ [])
    (hfresh : d1 ≤ cfg.cacheTTL) (hstale : cfg.cacheTTL < d2) :
    ∃ s1, fetch_coins_from_coingecko_paginated cfg up page per_page s0 =
        (s1, Except.ok data) ∧
      s1.calls.length = s0.calls.length + 1 ∧
      fetch_coins_from_coingecko_paginated cfg up page per_page (s1.advance d1) =
        (s1.advance d1, Except.ok data) ∧
      ∃ s3, fetch_coins_from_coingecko_paginated cfg up page per_page (s1.advance d2) =
          (s3, Except.ok data) ∧
        s3.calls.length = s1.calls.length + 1 := by
  have hnemp : ¬(data.isEmpty = true) := by simp [List.isEmpty_iff, hne]
  refine ⟨cacheSet (pageKey page per_page) data
    ⟨s0.cache, s0.now, s0.calls ++ [mkReq per_page page], s0.sleeps⟩, ?_, ?_, ?_, ?_⟩
  · unfold fetch_coins_from_coingecko_paginated
    rw [if_neg (by omega), if_neg (by omega), cacheGet_of_miss cfg _ s0 hmiss]
    dsimp only
    rw [retryFetchPage_entry_success up cfg.retryDelay (mkReq per_page page) s0 data (hup _)]
    dsimp only
    rw [if_neg hnemp]
  · simp [cacheSet]
  · unfold fetch_coins_from_coingecko_paginated
    rw [if_neg (by omega), if_neg (by omega),
      cacheGet_of_fresh cfg (pageKey page per_page) _ s0.now data
        (by simp [SysState.advance, cacheSet, lookup_dictSet_self])
        (by simp [SysState.advance, cacheSet]; omega)]
  · refine ⟨cacheSet (pageKey page per_page) data
      ⟨dictPop (dictSet s0.cache (pageKey page per_page) (s0.now, data)) (pageKey page per_page),
        s0.now + d2, (s0.calls ++ [mkReq per_page page]) ++ [mkReq per_page page],
        s0.sleeps⟩, ?_, ?_⟩
    · unfold fetch_coins_from_coingecko_paginated
      rw [if_neg (by omega), if_neg (by omega),
        cacheGet_of_stale cfg (pageKey page per_page) _ s0.now data
          (by simp [SysState.advance, cacheSet, lookup_dictSet_self])
          (by simp [SysState.advance, cacheSet]; omega)]
      dsimp only
      rw [retryFetchPage_entry_success up cfg.retryDelay (mkReq per_page page) _ data (hup _)]
      dsimp only
      rw [if_neg hnemp]
      rfl
    · simp [cacheSet]

/-- C5 witness: the default configuration, a constant one-coin page for
`fetch_page(page=2, per_page=5)`, freshness window `d1 = 60`, staleness
`d2 = 61`. -/
theorem claim_c5_cache_idempotence_witness :
    ∃ s1, fetch_coins_from_coingecko_paginated defaultConfig
        (fun _ _ => HttpResult.success [mockCoin 1]) 2 5 (initState 0) =
        (s1, Except.ok [mockCoin 1]) ∧
      s1.calls.length = (initState 0).calls.length + 1 ∧
      fetch_coins_from_coingecko_paginated defaultConfig
          (fun _ _ => HttpResult.success [mockCoin 1]) 2 5 (s1.advance 60) =
        (s1.advance 60, Except.ok [mockCoin 1]) ∧
      ∃ s3, fetch_coins_from_coingecko_paginated defaultConfig
          (fun _ _ => HttpResult.success [mockCoin 1]) 2 5 (s1.advance 61) =
          (s3, Except.ok [mockCoin 1]) ∧
        s3.calls.length = s1.calls.length + 1 :=
  claim_c5_cache_idempotence defaultConfig (fun _ _ => HttpResult.success [mockCoin 1])
    2 5 [mockCoin 1] (initState 0) 60 61 (by decide) (by decide) (by decide) rfl
    (fun _ => rfl) (by decide) (by decide) (by decide)

/-- C4. For every `page < 1` or `per_page` outside `[1, 250]`, the
paginated fetch fails immediately with `InvalidArgument`, leaving the
process state untouched: no upstream HTTP call is made and the cache is not
read or written. -/
theorem claim_c4_invalid_arguments (cfg : Config) (up : Upstream)
    (page per_page : Int) (s : SysState)
    (h : page < 1 ∨ per_page < 1 ∨ 250 < per_page) :
    fetch_coins_from_coingecko_paginated cfg up page per_page s =
      (s, Except.error (FetchError.invalidArgument
        (if page < 1 then "Page must be >= 1"
         else "Per page must be between 1 and 250"))) := by
  by_cases hp : page < 1
  · unfold fetch_coins_from_coingecko_paginated
    rw [if_pos hp, if_pos hp]
  · have hpp : per_page < 1 ∨ per_page > 250 := by
      rcases h with h1 | h1 | h1
      · exact absurd h1 hp
      · exact Or.inl h1
      · exact Or.inr h1
    unfold fetch_coins_from_coingecko_paginated
    rw [if_neg hp, if_pos hpp, if_neg hp]

/-- C4 witness: `fetch_page(page=0, per_page=10)` and
`fetch_page(page=1, per_page=300)` both fail with `InvalidArgument` and no
upstream call. -/
theorem claim_c4_invalid_arguments_witness :
    (fetch_coins_from_coingecko_paginated defaultConfig (pureUp mockPages) 0 10 (initState 0) =
      (initState 0, Except.error (FetchError.invalidArgument
        (if (0 : Int) < 1 then "Page must be >= 1"
         else "Per page must be between 1 and 250")))) ∧
    (fetch_coins_from_coingecko_paginated defaultConfig (pureUp mockPages) 1 300 (initState 0) =
      (initState 0, Except.error (FetchError.invalidArgument
        (if (1 : Int) < 1 then "Page must be >= 1"
         else "Per page must be between 1 and 250")))) :=
  ⟨claim_c4_invalid_arguments defaultConfig (pureUp mockPages) 0 10 (initState 0)
      (Or.inl (by decide)),
   claim_c4_invalid_arguments defaultConfig (pureUp mockPages) 1 300 (initState 0)
      (Or.inr (Or.inr (by decide)))⟩

/-- C6 (code-bug evaluation). The claimed behavior — the full capped
aggregate cached once under a key derived from the configured maximum
(`topKey defaultConfig = "top:1000"`, first conjunct), shared by
`fetch_top` calls with different limits and sliced client-side — is what
`crypto_service.fetch_coins_from_coingecko` implements; but the wired
route calls `main.py`'s own uncached duplicate. Evaluating the real route
at the failing input (limits 10 then 7, mocked 5-record pages 1..4 then an
empty page): the first call issues 5 upstream HTTP calls, the second
issues 5 more (10 in total), the cache stays empty throughout — no entry
is created, let alone shared — and the route cannot even deliver the
sliced coins: its success path fails the required-field validation of its
own `CryptoResponse` model and surfaces `HTTPException(500)`. -/
theorem claim_c6_top_route_uncached :
    topKey defaultConfig = "top:1000" ∧
    ((get_top_cryptos (pureUp mockPages) 10 (initState 0)).1).calls.length = 5 ∧
    ((get_top_cryptos (pureUp mockPages) 10 (initState 0)).1).cache = [] ∧
    ((get_top_cryptos (pureUp mockPages) 7
      ((get_top_cryptos (pureUp mockPages) 10 (initState 0)).1)).1).calls.length = 10 ∧
    ((get_top_cryptos (pureUp mockPages) 7
      ((get_top_cryptos (pureUp mockPages) 10 (initState 0)).1)).1).cache = [] ∧
    (get_top_cryptos (pureUp mockPages) 10 (initState 0)).2 =
      Except.error FetchError.internalError := by
  refine ⟨by decide, by decide, by decide, by decide, by decide, by decide⟩

/-- C9. `_cache_get` serves a stored entry iff the elapsed wall-clock time
since `stored_at` is at most the configured TTL (default 60 s); once the
elapsed time exceeds the TTL, the entry is treated as absent and removed
lazily on that very read; and a failing paginated fetch (from a cache miss)
leaves the cache exactly as it was — entries are created only by a
successful fetch. -/
theorem claim_c9_cache_ttl_semantics :
    (∀ (cfg : Config) (key : String) (s : SysState) (ts : Nat) (v : List RawRecord),
      List.lookup key s.cache = some (ts, v) →
      ((cacheGet cfg key s).2 = some v ↔ s.now - ts ≤ cfg.cacheTTL)) ∧
    (∀ (cfg : Config) (key : String) (s : SysState) (ts : Nat) (v : List RawRecord),
      List.lookup key s.cache = some (ts, v) → cfg.cacheTTL < s.now - ts →
      cacheGet cfg key s = (⟨dictPop s.cache key, s.now, s.calls, s.sleeps⟩, none) ∧
      List.lookup key ((cacheGet cfg key s).1).cache = none) ∧
    defaultConfig.cacheTTL = 60 ∧
    (∀ (cfg : Config) (up : Upstream) (page per_page : Int) (s s2 : SysState) (e : FetchError),
      List.lookup (pageKey page per_page) s.cache = none →
      fetch_coins_from_coingecko_paginated cfg up page per_page s = (s2, Except.error e) →
      s2.cache = s.cache) ∧
    (∀ (cfg : Config) (up : Upstream) (s s2 : SysState) (e : FetchError),
      List.lookup (topKey cfg) s.cache = none →
      fetch_coins_from_coingecko cfg up s = (s2, Except.error e) →
      s2.cache = s.cache) := by
  refine ⟨?_, ?_, rfl, ?_, ?_⟩
  · intro cfg key s ts v h
    by_cases hstale : cfg.cacheTTL < s.now - ts
    · rw [cacheGet_of_stale cfg key s ts v h hstale]
      simp
      omega
    · rw [cacheGet_of_fresh cfg key s ts v h (by omega)]
      simp
      omega
  · intro cfg key s ts v h hstale
    refine ⟨cacheGet_of_stale cfg key s ts v h hstale, ?_⟩
    rw [cacheGet_of_stale cfg key s ts v h hstale]
    exact lookup_dictPop_self s.cache key
  · intro cfg up page per_page s s2 e hmiss hfe
    by_cases hp : page < 1
    · unfold fetch_coins_from_coingecko_paginated at hfe
      rw [if_pos hp] at hfe
      injection hfe with h1 _
      rw [← h1]
    · by_cases hpp : per_page < 1 ∨ per_page > 250
      · unfold fetch_coins_from_coingecko_paginated at hfe
        rw [if_neg hp, if_pos hpp] at hfe
        injection hfe with h1 _
        rw [← h1]
      · unfold fetch_coins_from_coingecko_paginated at hfe
        rw [if_neg hp, if_neg hpp, cacheGet_of_miss cfg _ s hmiss] at hfe
        dsimp only at hfe
        rcases hr : retryFetchPage up cfg.retryDelay (mkReq per_page page) 0 maxRetries s with ⟨s3, res⟩
        rw [hr] at hfe
        have hc3 : s3.cache = s.cache := by
          have hx := retryFetchPage_cache up cfg.retryDelay (mkReq per_page page) maxRetries 0 s
          rw [hr] at hx
          exact hx
        cases res with
        | error e2 =>
          dsimp only at hfe
          injection hfe with h1 _
          rw [← h1]
          exact hc3
        | ok data =>
          dsimp only at hfe
          by_cases hemp : data.isEmpty = true
          · rw [if_pos hemp] at hfe
            injection hfe with _ h2
            simp at h2
          · rw [if_neg hemp] at hfe
            injection hfe with _ h2
            simp at h2
  · intro cfg up s s2 e hmiss hfe
    unfold fetch_coins_from_coingecko at hfe
    rw [cacheGet_of_miss cfg _ s hmiss] at hfe
    dsimp only at hfe
    rcases ht : topLoop cfg up (cfg.maxCoins + 1) [] 1 s with ⟨s3, r⟩
    rw [ht] at hfe
    have hc3 : s3.cache = s.cache := by
      have hx := topLoop_cache cfg up (cfg.maxCoins + 1) [] 1 s
      rw [ht] at hx
      exact hx
    cases r with
    | error e2 =>
      injection hfe with h1 _
      rw [← h1]
      exact hc3
    | ok coins =>
      dsimp only at hfe
      injection hfe with _ h2
      simp at h2

/-- C9 witness: a fresh 30-second-old entry is served; a 61-second-old one
is purged on the read; an invalid-argument failure leaves the cache as it
was. -/
theorem claim_c9_cache_ttl_semantics_witness :
    ((cacheGet defaultConfig "k" ⟨[("k", (0, []))], 30, [], []⟩).2 = some [] ↔
      (30 : Nat) - 0 ≤ defaultConfig.cacheTTL) ∧
    (cacheGet defaultConfig "k" ⟨[("k", (0, []))], 61, [], []⟩ =
      (⟨dictPop [("k", (0, []))] "k", 61, [], []⟩, none) ∧
      List.lookup "k" ((cacheGet defaultConfig "k" ⟨[("k", (0, []))], 61, [], []⟩).1).cache = none) ∧
    ((initState 5).cache = (initState 5).cache) :=
  ⟨claim_c9_cache_ttl_semantics.1 defaultConfig "k" ⟨[("k", (0, []))], 30, [], []⟩ 0 [] rfl,
   claim_c9_cache_ttl_semantics.2.1 defaultConfig "k" ⟨[("k", (0, []))], 61, [], []⟩ 0 [] rfl
     (by decide),
   claim_c9_cache_ttl_semantics.2.2.2.1 defaultConfig (pureUp mockPages) 0 10 (initState 5)
     (initState 5) (FetchError.invalidArgument "Page must be >= 1") rfl (by decide)⟩

/-- C10. When a cache-miss `fetch_page` call receives an empty page from
upstream it returns `[]` but writes no cache entry (the returned state
carries the caller's cache unchanged), so an identical repeated call —
even immediately, well within the TTL — contacts upstream again (one more
logged HTTP call). By contrast, `fetch_top` caches its aggregate even when
it is empty, and a later call within the TTL serves the cached empty
result without contacting upstream. -/
theorem claim_c10_empty_page_not_cached (cfg : Config) (up : Upstream)
    (page per_page : Int) (s0 u0 : SysState) (d : Nat)
    (hup : ∀ n r, up n r = HttpResult.success [])
    (hpage : 1 ≤ page) (hpp1 : 1 ≤ per_page) (hpp2 : per_page ≤ 250)
    (hmiss : List.lookup (pageKey page per_page) s0.cache = none)
    (humiss : List.lookup (topKey cfg) u0.cache = none)
    (hmax : 0 < cfg.maxCoins) (hd : d ≤ cfg.cacheTTL) :
    (fetch_coins_from_coingecko_paginated cfg up page per_page s0 =
      (⟨s0.cache, s0.now, s0.calls ++ [mkReq per_page page], s0.sleeps⟩, Except.ok [])) ∧
    (fetch_coins_from_coingecko_paginated cfg up page per_page
        ⟨s0.cache, s0.now, s0.calls ++ [mkReq per_page page], s0.sleeps⟩ =
      (⟨s0.cache, s0.now, s0.calls ++ [mkReq per_page page] ++ [mkReq per_page page],
        s0.sleeps⟩, Except.ok [])) ∧
    (fetch_coins_from_coingecko cfg up u0 =
      (cacheSet (topKey cfg) [] ⟨u0.cache, u0.now, u0.calls ++ [mkReq cfg.perPage 1], u0.sleeps⟩,
        Except.ok [])) ∧
    (fetch_coins_from_coingecko cfg up
        ((cacheSet (topKey cfg) []
          ⟨u0.cache, u0.now, u0.calls ++ [mkReq cfg.perPage 1], u0.sleeps⟩).advance d) =
      ((cacheSet (topKey cfg) []
          ⟨u0.cache, u0.now, u0.calls ++ [mkReq cfg.perPage 1], u0.sleeps⟩).advance d,
        Except.ok [])) := by
  have pageStep : ∀ s : SysState, List.lookup (pageKey page per_page) s.cache = none →
      fetch_coins_from_coingecko_paginated cfg up page per_page s =
        (⟨s.cache, s.now, s.calls ++ [mkReq per_page page], s.sleeps⟩, Except.ok []) := by
    intro s hm
    unfold fetch_coins_from_coingecko_paginated
    rw [if_neg (by omega), if_neg (by omega), cacheGet_of_miss cfg _ s hm]
    dsimp only
    rw [retryFetchPage_entry_success up cfg.retryDelay (mkReq per_page page) s [] (hup _ _)]
    rfl
  refine ⟨pageStep s0 hmiss, pageStep _ hmiss, ?_, ?_⟩
  · unfold fetch_coins_from_coingecko
    rw [cacheGet_of_miss cfg _ u0 humiss]
    dsimp only
    simp only [topLoop]
    rw [if_pos (by simpa using hmax)]
    rw [retryFetchPage_entry_success up cfg.retryDelay (mkReq cfg.perPage 1) u0 [] (hup _ _)]
    rfl
  · unfold fetch_coins_from_coingecko
    rw [cacheGet_of_fresh cfg (topKey cfg) _ u0.now []
      (by simp [SysState.advance, cacheSet, lookup_dictSet_self])
      (by simp [SysState.advance, cacheSet]; omega)]

/-- C10 witness: default configuration, an upstream with no data at all,
`fetch_page(page=2, per_page=5)` twice from a fresh state, and the top
fetch plus a re-read 30 seconds later. -/
theorem claim_c10_empty_page_not_cached_witness :
    (fetch_coins_from_coingecko_paginated defaultConfig (fun _ _ => HttpResult.success [])
        2 5 (initState 0) =
      (⟨(initState 0).cache, (initState 0).now, (initState 0).calls ++ [mkReq 5 2],
        (initState 0).sleeps⟩, Except.ok [])) ∧
    (fetch_coins_from_coingecko_paginated defaultConfig (fun _ _ => HttpResult.success [])
        2 5 ⟨(initState 0).cache, (initState 0).now, (initState 0).calls ++ [mkReq 5 2],
          (initState 0).sleeps⟩ =
      (⟨(initState 0).cache, (initState 0).now,
        (initState 0).calls ++ [mkReq 5 2] ++ [mkReq 5 2], (initState 0).sleeps⟩,
        Except.ok [])) ∧
    (fetch_coins_from_coingecko defaultConfig (fun _ _ => HttpResult.success []) (initState 0) =
      (cacheSet (topKey defaultConfig) []
        ⟨(initState 0).cache, (initState 0).now,
          (initState 0).calls ++ [mkReq defaultConfig.perPage 1], (initState 0).sleeps⟩,
        Except.ok [])) ∧
    (fetch_coins_from_coingecko defaultConfig (fun _ _ => HttpResult.success [])
        ((cacheSet (topKey defaultConfig) []
          ⟨(initState 0).cache, (initState 0).now,
            (initState 0).calls ++ [mkReq defaultConfig.perPage 1],
            (initState 0).sleeps⟩).advance 30) =
      ((cacheSet (topKey defaultConfig) []
          ⟨(initState 0).cache, (initState 0).now,
            (initState 0).calls ++ [mkReq defaultConfig.perPage 1],
            (initState 0).sleeps⟩).advance 30, Except.ok [])) :=
  claim_c10_empty_page_not_cached defaultConfig (fun _ _ => HttpResult.success [])
    2 5 (initState 0) (initState 0) 30 (fun _ _ => rfl) (by decide) (by decide) (by decide)
    rfl rfl (by decide) (by decide)

/-- C7. A non-429 HTTP error status from upstream causes exactly one
attempt (no retry, no sleep) and the paginated fetch fails immediately with
`UpstreamHttpError` preserving the upstream status; the cache is not
written. -/
theorem claim_c7_non_429_single_attempt (cfg : Config) (up : Upstream)
    (page per_page : Int) (s : SysState) (st : Nat)
    (hpage : 1 ≤ page) (hpp1 : 1 ≤ per_page) (hpp2 : per_page ≤ 250)
    (hmiss : List.lookup (pageKey page per_page) s.cache = none)
    (hresp : up s.calls.length (mkReq per_page page) = HttpResult.httpError st)
    (hst : st ≠ 429) :
    fetch_coins_from_coingecko_paginated cfg up page per_page s =
      (⟨s.cache, s.now, s.calls ++ [mkReq per_page page], s.sleeps⟩,
       Except.error (FetchError.upstreamHttp st)) := by
  unfold fetch_coins_from_coingecko_paginated
  rw [if_neg (by omega), if_neg (by omega), cacheGet_of_miss cfg _ s hmiss]
  dsimp only
  rw [retryFetchPage_entry_httpError up cfg.retryDelay (mkReq per_page page) s st hresp hst]

/-- C7 witness: an HTTP 500 answer yields `UpstreamHttpError` with status
500 after a single attempt. -/
theorem claim_c7_non_429_single_attempt_witness :
    fetch_coins_from_coingecko_paginated defaultConfig
        (fun _ _ => HttpResult.httpError 500) 1 10 (initState 0) =
      (⟨(initState 0).cache, (initState 0).now,
        (initState 0).calls ++ [mkReq 10 1], (initState 0).sleeps⟩,
       Except.error (FetchError.upstreamHttp 500)) :=
  claim_c7_non_429_single_attempt defaultConfig (fun _ _ => HttpResult.httpError 500)
    1 10 (initState 0) 500 (by decide) (by decide) (by decide) (by decide) rfl (by decide)

/-- C1 counterexample. The claim says normalization never fails on records
whose values may be numbers, strings, or nulls. It does fail: on
`{"symbol": null}` the source evaluates `coin_data.get("symbol", "")` to
the stored `None` (the default only covers an absent key) and
`None.upper()` raises `AttributeError`. -/
theorem claim_c1_counterexample :
    transform_coin_data [("symbol", PyValue.pnone)] =
      Except.error "AttributeError: upper" := by
  decide

/-- C1 (amended). Normalization is pure, and it is total over records whose
present fields are well-typed for their target fields (string fields hold
strings, the rank an integral number or null, the numeric fields numbers or
null) — it cannot fail on merely missing fields; in particular a record
missing every optional field normalizes to a CanonicalCoin with
`rank = null`, `id = ""`, `name = ""`, all numeric fields null and
`symbol = ""`. It is not total over records carrying a null (or a number)
in a string position, such as `{"symbol": null}`. -/
theorem claim_c1_normalization_total_amended :
    (∀ r : RawRecord, wellTypedRecord r = true →
      exceptIsOk (transform_coin_data r) = true) ∧
    transform_coin_data [] =
      Except.ok ⟨none, "", "", "", none, none, none, none, none, none⟩ := by
  refine ⟨?_, by decide⟩
  intro r hw
  unfold wellTypedRecord at hw
  simp only [Bool.and_eq_true] at hw
  obtain ⟨⟨⟨⟨⟨⟨⟨⟨⟨h1, h2⟩, h3⟩, h4⟩, h5⟩, h6⟩, h7⟩, h8⟩, h9⟩, h10⟩ := hw
  obtain ⟨sym, hsymv, hupper⟩ := strShape_pyUpper_ok _ h1
  obtain ⟨rank, hrank⟩ := optIntShape_validateOptInt_ok _ h2
  obtain ⟨idv, hid⟩ := strShape_validateStr_ok _ h3
  obtain ⟨namev, hname⟩ := strShape_validateStr_ok _ h4
  obtain ⟨pu, hpu⟩ := optNumShape_validateOptFloat_ok _ h5
  obtain ⟨mc, hmc⟩ := optNumShape_validateOptFloat_ok _ h6
  obtain ⟨ch, hch⟩ := optNumShape_validateOptFloat_ok _ h7
  obtain ⟨tv, htv⟩ := optNumShape_validateOptFloat_ok _ h8
  obtain ⟨lu, hlu⟩ := optStrShape_validateOptStr_ok _ h9
  obtain ⟨im, him⟩ := optStrShape_validateOptStr_ok _ h10
  unfold transform_coin_data
  simp only [hupper, hrank, hid, hname, hpu, hmc, hch, htv, hlu, him, exceptBind_ok]
  rfl

/-- C1 witness for the amended totality: a record whose only present field
is a string-valued symbol is well-typed and normalizes successfully. -/
theorem claim_c1_normalization_total_amended_witness :
    wellTypedRecord [("symbol", PyValue.pstr "btc")] = true ∧
    exceptIsOk (transform_coin_data [("symbol", PyValue.pstr "btc")]) = true :=
  ⟨by decide,
   claim_c1_normalization_total_amended.1 [("symbol", PyValue.pstr "btc")] (by decide)⟩

/-- C8. Every CanonicalCoin that normalization produces satisfies the
shape invariant: its symbol is the upper-casing of the raw symbol string
(the empty string standing in for an absent one), and `id`/`name` — which
are plain strings, never null, by the type of `CryptoCoin` — default to
the empty string exactly when the raw field is absent. -/
theorem claim_c8_shape_invariant (r : RawRecord) (c : CryptoCoin)
    (h : transform_coin_data r = Except.ok c) :
    (∃ rawSym, pyGetD r "symbol" (PyValue.pstr "") = PyValue.pstr rawSym ∧
      c.symbol = pyStrUpper rawSym) ∧
    (List.lookup "symbol" r = none → c.symbol = "") ∧
    (List.lookup "id" r = none → c.id = "") ∧
    (List.lookup "name" r = none → c.name = "") := by
  unfold transform_coin_data at h
  cases hupper : pyUpper (pyGetD r "symbol" (PyValue.pstr "")) with
  | error e => rw [hupper, exceptBind_error] at h; simp at h
  | ok symv =>
  rw [hupper, exceptBind_ok] at h
  cases hrank : validateOptInt (pyGet r "market_cap_rank") with
  | error e => rw [hrank, exceptBind_error] at h; simp at h
  | ok rank =>
  rw [hrank, exceptBind_ok] at h
  cases hid : validateStr (pyGetD r "id" (PyValue.pstr "")) with
  | error e => rw [hid, exceptBind_error] at h; simp at h
  | ok idv =>
  rw [hid, exceptBind_ok] at h
  cases hname : validateStr (pyGetD r "name" (PyValue.pstr "")) with
  | error e => rw [hname, exceptBind_error] at h; simp at h
  | ok namev =>
  rw [hname, exceptBind_ok] at h
  cases hpu : validateOptFloat (pyGet r "current_price") with
  | error e => rw [hpu, exceptBind_error] at h; simp at h
  | ok pu =>
  rw [hpu, exceptBind_ok] at h
  cases hmc : validateOptFloat (pyGet r "market_cap") with
  | error e => rw [hmc, exceptBind_error] at h; simp at h
  | ok mc =>
  rw [hmc, exceptBind_ok] at h
  cases hch : validateOptFloat (pyGet r "price_change_percentage_24h") with
  | error e => rw [hch, exceptBind_error] at h; simp at h
  | ok ch =>
  rw [hch, exceptBind_ok] at h
  cases htv : validateOptFloat (pyGet r "total_volume") with
  | error e => rw [htv, exceptBind_error] at h; simp at h
  | ok tv =>
  rw [htv, exceptBind_ok] at h
  cases hlu : validateOptStr (pyGet r "last_updated") with
  | error e => rw [hlu, exceptBind_error] at h; simp at h
  | ok lu =>
  rw [hlu, exceptBind_ok] at h
  cases him : validateOptStr (pyGet r "image") with
  | error e => rw [him, exceptBind_error] at h; simp at h
  | ok im =>
  rw [him, exceptBind_ok] at h
  have hc : (⟨rank, symv, idv, namev, pu, mc, ch, tv, lu, im⟩ : CryptoCoin) = c := by
    simpa [pure, Except.pure] using h
  subst hc
  have hsymstr : ∃ s, pyGetD r "symbol" (PyValue.pstr "") = PyValue.pstr s ∧
      symv = pyStrUpper s := by
    cases hv : pyGetD r "symbol" (PyValue.pstr "") with
    | pnone => rw [hv] at hupper; simp [pyUpper] at hupper
    | pnum q => rw [hv] at hupper; simp [pyUpper] at hupper
    | pstr s =>
      rw [hv] at hupper
      refine ⟨s, rfl, ?_⟩
      simpa [pyUpper] using hupper.symm
  obtain ⟨s, hv, hsv⟩ := hsymstr
  refine ⟨⟨s, hv, hsv⟩, ?_, ?_, ?_⟩
  · intro h0
    have hdefault : pyGetD r "symbol" (PyValue.pstr "") = PyValue.pstr "" := by
      simp [pyGetD, h0]
    rw [hdefault] at hv
    injection hv with hs
    rw [hsv, ← hs]
    rfl
  · intro h0
    have hdefault : pyGetD r "id" (PyValue.pstr "") = PyValue.pstr "" := by
      simp [pyGetD, h0]
    rw [hdefault] at hid
    simpa [validateStr] using hid.symm
  · intro h0
    have hdefault : pyGetD r "name" (PyValue.pstr "") = PyValue.pstr "" := by
      simp [pyGetD, h0]
    rw [hdefault] at hname
    simpa [validateStr] using hname.symm

/-- C8 witness: the record `{"symbol": "btc"}` normalizes to a coin whose
symbol is `"BTC"` and whose id and name defaulted to the empty string. -/
theorem claim_c8_shape_invariant_witness :
    (∃ rawSym, pyGetD [("symbol", PyValue.pstr "btc")] "symbol" (PyValue.pstr "") =
        PyValue.pstr rawSym ∧
      (CryptoCoin.mk none "BTC" "" "" none none none none none none).symbol =
        pyStrUpper rawSym) ∧
    (List.lookup "symbol" ([("symbol", PyValue.pstr "btc")] : RawRecord) = none →
      (CryptoCoin.mk none "BTC" "" "" none none none none none none).symbol = "") ∧
    (List.lookup "id" ([("symbol", PyValue.pstr "btc")] : RawRecord) = none →
      (CryptoCoin.mk none "BTC" "" "" none none none none none none).id = "") ∧
    (List.lookup "name" ([("symbol", PyValue.pstr "btc")] : RawRecord) = none →
      (CryptoCoin.mk none "BTC" "" "" none none none none none none).name = "") :=
  claim_c8_shape_invariant [("symbol", PyValue.pstr "btc")]
    (CryptoCoin.mk none "BTC" "" "" none none none none none none) (by decide)
